import Mathlib

/-!
Verification of the import-resolution and statistics tools of the repository
(`import_graph.py`, `import_graph_builder.py`, `import_map.py`,
`project_doc_gen.py`, `code_stats.py`).

The Python sources are shallowly embedded: Python strings are `String`,
string helper methods (`startswith`, `strip`, `split`, `join`, ...) are
re-implemented over `String.data` with Python semantics, `pathlib` relative
paths are lists of path segments (the last segment being the file name),
Python `set`s are duplicate-free lists built by insertion-order `addToSet`,
Python `dict`s are insertion-ordered association lists, a parsed `ast` tree
is the list of its nodes in `ast.walk` order (`none` when `ast.parse` raises
`SyntaxError`), and a file on disk is a `SourceFile` carrying the result of
decoding its bytes as UTF-8 (`none` when that raises `UnicodeDecodeError`)
and as latin-1 (which never fails on any byte string).  Uncaught Python
exceptions are `Except.error`.
-/

/-- Python `s.startswith(pre)`: `pre` is a character-wise prefix of `s`. -/
def pyStartsWith (s pre : String) : Bool := pre.data.isPrefixOf s.data

/-- Python `s.strip()`: remove leading and trailing whitespace. -/
def pyStrip (s : String) : String :=
  String.mk (((s.data.dropWhile Char.isWhitespace).reverse.dropWhile Char.isWhitespace).reverse)

/-- Python `sep.join(xs)`. -/
def pyJoin (sep : String) : List String → String
  | [] => ""
  | [x] => x
  | x :: xs => x ++ sep ++ pyJoin sep xs

/-- Worker for `pySplitDot`, accumulating the current piece in reverse. -/
def splitDotAux : List Char → List Char → List String
  | [], cur => [String.mk cur.reverse]
  | c :: rest, cur =>
    if c == '.' then String.mk cur.reverse :: splitDotAux rest []
    else splitDotAux rest (c :: cur)

/-- Python `s.split(".")`: always returns one piece more than the number of
dots, so `pySplitDot "" = [""]`. -/
def pySplitDot (s : String) : List String := splitDotAux s.data []

/-- Python `s.lstrip(".")`: drop leading dots. -/
def pyLstripDots (s : String) : String := String.mk (s.data.dropWhile (· == '.'))

/-- Python `"." * level`. -/
def dotString (level : Nat) : String := String.mk (List.replicate level '.')

/-- Python `str(x)` for an `Optional[str]` value: `None` prints as "None". -/
def pyStr : Option String → String
  | none => "None"
  | some s => s

/-- Python `s[3:]`. -/
def pyDrop3 (s : String) : String := String.mk (s.data.drop 3)

/-- Lexicographic comparison of character lists, the order Python `sorted`
uses on strings (code-point lexicographic). -/
def charListLe : List Char → List Char → Bool
  | [], _ => true
  | _ :: _, [] => false
  | a :: as, b :: bs => if a < b then true else if b < a then false else charListLe as bs

/-- String order used by Python `sorted` on `str`. -/
def strLe (a b : String) : Bool := charListLe a.data b.data

/-- `strLe` as a relation for `List.insertionSort`. -/
def strLeRel (a b : String) : Prop := strLe a b = true

instance : DecidableRel strLeRel := fun a b => inferInstanceAs (Decidable (strLe a b = true))

/-- Order on association-list entries by their string key; Python
`sorted(d.items())` on a `dict` (whose keys are distinct) coincides with
sorting the items by key. -/
def keyLe {V : Type} (p q : String × V) : Prop := strLe p.1 q.1 = true

instance {V : Type} : DecidableRel (keyLe (V := V)) :=
  fun p q => inferInstanceAs (Decidable (strLe p.1 q.1 = true))

/-- Python `sorted` on a list of strings. -/
def sortStrings (l : List String) : List String := l.insertionSort strLeRel

/-- Python `sorted(d.items())` for a string-keyed dict given as an
association list with distinct keys. -/
def sortByKey {V : Type} (l : List (String × V)) : List (String × V) :=
  l.insertionSort keyLe

/-- Python `set.add`: sets are embedded as duplicate-free lists in first
insertion order, so adding an existing element is a no-op. -/
def addToSet (s : List String) (x : String) : List String :=
  if x ∈ s then s else s ++ [x]

/-- One name of a Python import statement: `name` with optional `as asname`. -/
structure PyAlias where
  name : String
  asname : Option String
deriving DecidableEq

/-- A node of the parsed syntax tree, as seen by `ast.walk`: the embeddings
only distinguish the node kinds the tools inspect. -/
inductive PyNode where
  | importNode (names : List PyAlias)
  | importFromNode (level : Nat) (module : Option String) (names : List PyAlias)
  | functionDef
  | asyncFunctionDef
  | classDef
  | other
deriving DecidableEq

/-- A decoded Python source text: its physical lines (`str.splitlines`) and
its syntax tree in `ast.walk` order, `none` when `ast.parse` raises
`SyntaxError`. -/
structure FileContent where
  lines : List String
  ast : Option (List PyNode)
deriving DecidableEq

/-- A file on disk: the result of decoding its bytes as UTF-8 (`none` when
that raises `UnicodeDecodeError`) and as latin-1 (total on arbitrary bytes,
so it always yields a content). -/
structure SourceFile where
  utf8Decode : Option FileContent
  latin1Decode : FileContent
deriving DecidableEq

/-- The Python exceptions the extraction code can raise. -/
inductive ExtractErr where
  | decodeErr
  | parseErr
deriving DecidableEq

/-- The `read_text(encoding="utf-8")` / `except UnicodeDecodeError:` /
`read_text(encoding="latin-1")` pattern of `import_map.parse_imports` and
`code_stats.analyze_file`. -/
def readContent (f : SourceFile) : FileContent :=
  match f.utf8Decode with
  | some c => c
  | none => f.latin1Decode

/-- The `ast.walk` loop shared verbatim by `import_graph.parse_imports` and
`import_graph_builder.parse_imports`: collect `alias.name` for `ast.Import`
and `"." * node.level + (node.module or "")` for `ast.ImportFrom` into a
set. -/
def moduleSetOfNodes (nodes : List PyNode) : List String :=
  nodes.foldl
    (fun modules node =>
      match node with
      | PyNode.importNode names => names.foldl (fun ms a => addToSet ms a.name) modules
      | PyNode.importFromNode level module _ => addToSet modules (dotString level ++ module.getD "")
      | _ => modules)
    []

/-- Last segment of a relative path, Python `rel.name` (empty for the empty
path). -/
def relName (rel : List String) : String := rel.getLast? |>.getD ""

/-- Python `PurePath.with_suffix("")` applied to a single file name: drop
from the last dot, provided that dot is neither leading nor trailing
(`pathlib`'s suffix rule). -/
def pyStem (s : String) : String :=
  let cs := s.data
  let n := cs.length
  let idxs := (List.range n).filter fun i => (cs.get? i == some '.') && decide (0 < i) && decide (i < n - 1)
  match idxs.getLast? with
  | some i => String.mk (cs.take i)
  | none => s

/-- Python `rel.with_suffix("").parts`: strip the extension from the final
segment. -/
def withSuffixEmpty : List String → List String
  | [] => []
  | [f] => [pyStem f]
  | s :: rest => s :: withSuffixEmpty rest

/-- `import_graph_builder.is_local` (lines 75-82), character-identical in
`import_graph.py` (65-72) and `project_doc_gen.py` (36-43): relative
references are local; otherwise scan the local-module set for an exact match
or a dotted-descendant match. -/
def ImportGraphBuilder.is_local (module : String) (local_modules : List String) : Bool :=
  if pyStartsWith module "." then true
  else local_modules.any fun l => module == l || pyStartsWith module (l ++ ".")

/-- `project_doc_gen.is_local` (lines 36-43), same text as the builder's. -/
def ProjectDocGen.is_local (module : String) (local_modules : List String) : Bool :=
  if pyStartsWith module "." then true
  else local_modules.any fun l => module == l || pyStartsWith module (l ++ ".")

/-- `import_graph.is_local` (lines 65-72), same text as the builder's. -/
def ImportGraph.is_local (module : String) (local_modules : List String) : Bool :=
  if pyStartsWith module "." then true
  else local_modules.any fun l => module == l || pyStartsWith module (l ++ ".")

/-- `is_stdlib` as written identically in all three graph tools:
`module.lstrip(".").split(".")[0] in sys.stdlib_module_names`, with the
interpreter-provided name set passed in as data. -/
def isStdlibIn (stdlibNames : List String) (module : String) : Bool :=
  (pySplitDot (pyLstripDots module)).headD "" ∈ stdlibNames

/-- `import_graph_builder.module_name` (lines 55-62), character-identical in
`project_doc_gen.py` (16-23): a package-init file resolves to its parent
directory's dotted path, any other file to its extension-stripped segments
joined with dots. -/
def ImportGraphBuilder.module_name (rel : List String) : String :=
  if relName rel == "__init__.py" then pyJoin "." rel.dropLast
  else pyJoin "." (withSuffixEmpty rel)

/-- `project_doc_gen.module_name` (lines 16-23), same text as the builder's. -/
def ProjectDocGen.module_name (rel : List String) : String :=
  if relName rel == "__init__.py" then pyJoin "." rel.dropLast
  else pyJoin "." (withSuffixEmpty rel)

/-- `import_graph.module_name_from_path` (lines 45-48): join the
extension-stripped segments with dots; no special case for `__init__.py`. -/
def ImportGraph.module_name_from_path (rel : List String) : String :=
  pyJoin "." (withSuffixEmpty rel)

/-- `import_graph_builder.collect_local_modules` (lines 65-72): the set of
each file's full resolved module name, skipping empty names. -/
def ImportGraphBuilder.collect_local_modules (files : List (List String)) : List String :=
  files.foldl
    (fun modules p =>
      let mod := ImportGraphBuilder.module_name p
      if mod == "" then modules else addToSet modules mod)
    []

/-- `project_doc_gen.collect_local_modules` (lines 26-33), same behaviour as
the builder's. -/
def ProjectDocGen.collect_local_modules (files : List (List String)) : List String :=
  files.foldl
    (fun modules p =>
      let mod := ProjectDocGen.module_name p
      if mod == "" then modules else addToSet modules mod)
    []

/-- Loop body of `import_graph.collect_local_modules` (lines 54-61): add
every dotted name made of the first `i` segments (`i = 1 .. n`) of the
file's resolved name, and for an `__init__.py` file additionally the
parent's dotted path (`parts` is never empty since `str.split` always
returns at least one piece, matching the Python truthiness test). -/
def ImportGraph.addAllTakes (modules : List String) (parts : List String) : List String :=
  (List.range parts.length).foldl
    (fun ms i => addToSet ms (pyJoin "." (parts.take (i + 1)))) modules

/-- Loop body of `import_graph.collect_local_modules` continued: the Python
locals `mod` and `parts` are inlined. -/
def ImportGraph.collectStep (modules : List String) (rel : List String) : List String :=
  if relName rel == "__init__.py"
      && !(pySplitDot (ImportGraph.module_name_from_path rel)).isEmpty then
    addToSet
      (ImportGraph.addAllTakes modules (pySplitDot (ImportGraph.module_name_from_path rel)))
      (pyJoin "." (pySplitDot (ImportGraph.module_name_from_path rel)).dropLast)
  else ImportGraph.addAllTakes modules (pySplitDot (ImportGraph.module_name_from_path rel))

/-- `import_graph.collect_local_modules` (lines 51-62). -/
def ImportGraph.collect_local_modules (files : List (List String)) : List String :=
  files.foldl ImportGraph.collectStep []

/-- The per-file counters of `code_stats.analyze_file` (lines 27-35). -/
structure FileCounts where
  lines : Nat
  blank : Nat
  comments : Nat
  defs : Nat
  classes : Nat
  imports : Nat
  from_imports : Nat
deriving DecidableEq

/-- Line-scanning loop body of `code_stats.analyze_file` (lines 43-48):
`stripped = line.strip()`, blank when empty, comment when it starts with a
hash. -/
def CodeStats.lineStep (counts : FileCounts) (line : String) : FileCounts :=
  if pyStrip line == "" then { counts with blank := counts.blank + 1 }
  else if pyStartsWith (pyStrip line) "#" then { counts with comments := counts.comments + 1 }
  else counts

/-- Tree-walking loop body of `code_stats.analyze_file` (lines 54-62). -/
def CodeStats.nodeStep (counts : FileCounts) (node : PyNode) : FileCounts :=
  match node with
  | PyNode.functionDef => { counts with defs := counts.defs + 1 }
  | PyNode.asyncFunctionDef => { counts with defs := counts.defs + 1 }
  | PyNode.classDef => { counts with classes := counts.classes + 1 }
  | PyNode.importNode _ => { counts with imports := counts.imports + 1 }
  | PyNode.importFromNode _ _ _ => { counts with from_imports := counts.from_imports + 1 }
  | PyNode.other => counts

/-- The line-based part of `code_stats.analyze_file` (lines 27-48): counters
start at zero, `counts["lines"]` is the `splitlines` length, then every line
is scanned. -/
def CodeStats.lineCounts (ls : List String) : FileCounts :=
  ls.foldl CodeStats.lineStep
    { lines := ls.length, blank := 0, comments := 0, defs := 0, classes := 0,
      imports := 0, from_imports := 0 }

/-- `code_stats.analyze_file` (lines 25-64) applied to an already decoded
content: on `SyntaxError` from `ast.parse` the line-based counters are
returned as they stand, otherwise the tree walk adds structural counts. -/
def CodeStats.analyzeContent (content : FileContent) : FileCounts :=
  match content.ast with
  | none => CodeStats.lineCounts content.lines
  | some nodes => nodes.foldl CodeStats.nodeStep (CodeStats.lineCounts content.lines)

/-- `code_stats.analyze_file` (lines 25-64): read with the UTF-8 / latin-1
fallback, then analyze the decoded content. -/
def CodeStats.analyze_file (f : SourceFile) : FileCounts :=
  CodeStats.analyzeContent (readContent f)

/-- The project-wide report assembled by `code_stats.main` (lines 88-119);
`average_length`, a float, is the only field not carried over. -/
structure Report where
  files : Nat
  total_lines : Nat
  blank_lines : Nat
  comment_lines : Nat
  defs : Nat
  classes : Nat
  imports : Nat
  from_imports : Nat
  longest_file : String
  longest_lines : Nat
deriving DecidableEq

/-- The per-file summations of `code_stats.main` (lines 95-101). -/
def CodeStats.addCounts (r : Report) (stats : FileCounts) : Report :=
  { r with
    total_lines := r.total_lines + stats.lines
    blank_lines := r.blank_lines + stats.blank
    comment_lines := r.comment_lines + stats.comments
    defs := r.defs + stats.defs
    classes := r.classes + stats.classes
    imports := r.imports + stats.imports
    from_imports := r.from_imports + stats.from_imports }

/-- One iteration of the aggregation loop of `code_stats.main` (lines
93-104): sum the counters, then track the longest file. -/
def CodeStats.aggStep (r : Report) (entry : String × SourceFile) : Report :=
  if (CodeStats.analyze_file entry.2).lines > r.longest_lines then
    { CodeStats.addCounts r (CodeStats.analyze_file entry.2) with
      longest_file := entry.1, longest_lines := (CodeStats.analyze_file entry.2).lines }
  else CodeStats.addCounts r (CodeStats.analyze_file entry.2)

/-- The aggregation of `code_stats.main` (lines 88-119) over the discovered
files (given with their root-relative paths): `report["files"]` is the number
of discovered files. -/
def CodeStats.aggregate (files : List (String × SourceFile)) : Report :=
  files.foldl CodeStats.aggStep
    { files := files.length, total_lines := 0, blank_lines := 0, comment_lines := 0,
      defs := 0, classes := 0, imports := 0, from_imports := 0,
      longest_file := "", longest_lines := 0 }

/-- Specification-side reading of the blank-line test of
`code_stats.analyze_file`. -/
def isBlankLine (line : String) : Bool := pyStrip line == ""

/-- Specification-side reading of the comment-only-line test of
`code_stats.analyze_file` (the `elif` branch: not blank and the stripped
line starts with a hash). -/
def isCommentLine (line : String) : Bool :=
  !(pyStrip line == "") && pyStartsWith (pyStrip line) "#"

/-- A well-formed sample file: decodes as UTF-8 and parses. -/
def sampleGood : SourceFile :=
  { utf8Decode := some
      { lines := ["import os", "", "x = 1"]
      , ast := some [PyNode.importNode [{ name := "os", asname := none }]] }
  , latin1Decode :=
      { lines := ["import os", "", "x = 1"]
      , ast := some [PyNode.importNode [{ name := "os", asname := none }]] } }

/-- A malformed sample file: decodes as UTF-8 but `ast.parse` raises
`SyntaxError`. -/
def sampleBad : SourceFile :=
  { utf8Decode := some { lines := ["def broken(:", "# comment"], ast := none }
  , latin1Decode := { lines := ["def broken(:", "# comment"], ast := none } }

/-- A sample file whose bytes are not valid UTF-8: the UTF-8 decode raises
`UnicodeDecodeError`, while the latin-1 decode yields a parseable text. -/
def sampleUndecodable : SourceFile :=
  { utf8Decode := none
  , latin1Decode := { lines := ["x = 1"], ast := some [] } }

/-- A sample discovery result with one well-formed and one malformed file. -/
def sampleFiles : List (String × SourceFile) := [("good.py", sampleGood), ("bad.py", sampleBad)]

/-- `import_graph.parse_imports` (lines 19-33): open the file as UTF-8 (a
decode failure propagates), parse it (a `SyntaxError` propagates), then
collect the module set from the tree. -/
def ImportGraph.parse_imports (f : SourceFile) : Except ExtractErr (List String) :=
  match f.utf8Decode with
  | none => Except.error ExtractErr.decodeErr
  | some c =>
    match c.ast with
    | none => Except.error ExtractErr.parseErr
    | some nodes => Except.ok (moduleSetOfNodes nodes)

/-- `import_graph_builder.parse_imports` (lines 27-43): `except SyntaxError`
returns the empty set, but a UTF-8 decode failure is not caught and
propagates. -/
def ImportGraphBuilder.parse_imports (f : SourceFile) : Except ExtractErr (List String) :=
  match f.utf8Decode with
  | none => Except.error ExtractErr.decodeErr
  | some c =>
    match c.ast with
    | none => Except.ok []
    | some nodes => Except.ok (moduleSetOfNodes nodes)

/-- The `for path in py_files:` loop of `import_graph.build_import_tree`
(lines 36-42), with the accumulated tree threaded through: any exception
from `parse_imports` aborts the loop. -/
def ImportGraph.buildTreeAux (tree : List (String × List String)) :
    List (String × SourceFile) → Except ExtractErr (List (String × List String))
  | [] => Except.ok tree
  | entry :: rest =>
    match ImportGraph.parse_imports entry.2 with
    | Except.error e => Except.error e
    | Except.ok imports => ImportGraph.buildTreeAux (tree ++ [(entry.1, imports)]) rest

/-- `import_graph.build_import_tree` (lines 36-42): files are given with
their root-relative paths. -/
def ImportGraph.build_import_tree (files : List (String × SourceFile)) :
    Except ExtractErr (List (String × List String)) :=
  ImportGraph.buildTreeAux [] files

/-- The loop of `import_graph_builder.build_import_tree` (lines 46-52). -/
def ImportGraphBuilder.buildTreeAux (tree : List (String × List String)) :
    List (String × SourceFile) → Except ExtractErr (List (String × List String))
  | [] => Except.ok tree
  | entry :: rest =>
    match ImportGraphBuilder.parse_imports entry.2 with
    | Except.error e => Except.error e
    | Except.ok imports => ImportGraphBuilder.buildTreeAux (tree ++ [(entry.1, imports)]) rest

/-- `import_graph_builder.build_import_tree` (lines 46-52). -/
def ImportGraphBuilder.build_import_tree (files : List (String × SourceFile)) :
    Except ExtractErr (List (String × List String)) :=
  ImportGraphBuilder.buildTreeAux [] files

/-- A Graphviz node statement as emitted by `import_graph.main`: the
constant `style="filled"` attribute is omitted; `label` always equals the
node id in the source. -/
structure DotNode where
  id : String
  label : String
  shape : String
  color : String
deriving DecidableEq

/-- State of the node/edge emission loop of `import_graph.main` (lines
96-128): the `added_nodes` set and the emitted node and edge statements in
emission order. -/
structure DotState where
  added_nodes : List String
  nodes : List DotNode
  edges : List (String × String)
deriving DecidableEq

/-- Inner loop body of `import_graph.main` (lines 111-128): register the
module node on first sight (colored by classification) and always emit one
edge from the file to the module. -/
def ImportGraph.moduleStep (stdlibNames local_modules : List String) (file_path : String)
    (st : DotState) (module : String) : DotState :=
  if module ∈ st.added_nodes then
    { st with edges := st.edges ++ [(file_path, module)] }
  else
    { added_nodes := st.added_nodes ++ [module]
    , nodes := st.nodes ++
        [{ id := module, label := module, shape := "ellipse"
         , color :=
             if ImportGraph.is_local module local_modules then "blue"
             else if isStdlibIn stdlibNames module then "gray"
             else "green" }]
    , edges := st.edges ++ [(file_path, module)] }

/-- Outer loop body of `import_graph.main` (lines 100-128): register the
file node on first sight, then walk the file's imports in sorted order. -/
def ImportGraph.fileStep (stdlibNames local_modules : List String)
    (st : DotState) (entry : String × List String) : DotState :=
  (sortStrings entry.2).foldl (ImportGraph.moduleStep stdlibNames local_modules entry.1)
    (if entry.1 ∈ st.added_nodes then st
     else
       { st with
         added_nodes := st.added_nodes ++ [entry.1]
         nodes := st.nodes ++
           [{ id := entry.1, label := entry.1, shape := "box", color := "lightblue" }] })

/-- The graph-emission phase of `import_graph.main` (lines 96-128) over an
already built import tree. -/
def ImportGraph.build_graph (stdlibNames local_modules : List String)
    (tree : List (String × List String)) : DotState :=
  tree.foldl (ImportGraph.fileStep stdlibNames local_modules)
    { added_nodes := [], nodes := [], edges := [] }

/-- A file's import dict as built by `import_map.parse_imports`: module
string to the list of recorded entries, `none` for a bare `import m`,
`some "as a"` for `import m as a`, `some "n"` or `some "n as a"` for names
of a from-import. -/
abbrev Imports := List (String × List (Option String))

/-- `defaultdict(list)` insertion for `import_map.parse_imports`: append to
the existing entry, or create it at the end (dicts preserve first-insertion
order). -/
def ImportMap.addImport (d : Imports) (k : String) (v : Option String) : Imports :=
  if d.any fun p => p.1 == k then
    d.map fun p => if p.1 == k then (p.1, p.2 ++ [v]) else p
  else d ++ [(k, [v])]

/-- The `ast.walk` loop of `import_map.parse_imports` (lines 33-46). -/
def ImportMap.importsOfNodes (nodes : List PyNode) : Imports :=
  nodes.foldl
    (fun imports node =>
      match node with
      | PyNode.importNode names =>
        names.foldl
          (fun d a =>
            match a.asname with
            | some asn => ImportMap.addImport d a.name (some ("as " ++ asn))
            | none => ImportMap.addImport d a.name none)
          imports
      | PyNode.importFromNode level module names =>
        names.foldl
          (fun d a =>
            match a.asname with
            | some asn =>
              ImportMap.addImport d (dotString level ++ module.getD "")
                (some (a.name ++ " as " ++ asn))
            | none =>
              ImportMap.addImport d (dotString level ++ module.getD "") (some a.name))
          imports
      | _ => imports)
    []

/-- `import_map.parse_imports` (lines 17-48) after the decode step: an
uncaught `SyntaxError` from `ast.parse` propagates to the caller. -/
def ImportMap.parseContent (content : FileContent) : Except ExtractErr Imports :=
  match content.ast with
  | none => Except.error ExtractErr.parseErr
  | some nodes => Except.ok (ImportMap.importsOfNodes nodes)

/-- `import_map.parse_imports` (lines 17-48): read as UTF-8, on
`UnicodeDecodeError` retry as latin-1, then parse and walk. -/
def ImportMap.parse_imports (f : SourceFile) : Except ExtractErr Imports :=
  ImportMap.parseContent (readContent f)

/-- A sample file containing both `import os` and `from os import path`. -/
def fileOsBoth : SourceFile :=
  { utf8Decode := some
      { lines := ["import os", "from os import path"]
      , ast := some
          [PyNode.importNode [{ name := "os", asname := none }],
           PyNode.importFromNode 0 (some "os") [{ name := "path", asname := none }]] }
  , latin1Decode :=
      { lines := ["import os", "from os import path"]
      , ast := some
          [PyNode.importNode [{ name := "os", asname := none }],
           PyNode.importFromNode 0 (some "os") [{ name := "path", asname := none }]] } }

/-- Dict indexing `tree[file_path]` on the association-list embedding of a
dict: the first entry carrying the key (unique in an actual dict). -/
def lookupTree {V : Type} (tree : List (String × V)) (k : String) : Option V :=
  (tree.find? fun p => p.1 == k).map Prod.snd

/-- The `for item in import_items:` loop of `project_doc_gen.format_entry`
(lines 58-63). -/
def ProjectDocGen.importItemLines (module : String) (names : List (Option String))
    (indent : String) : List String :=
  (names.filter fun n => n.isNone || pyStartsWith (pyStr n) "as ").map fun item =>
    match item with
    | none => indent ++ "- `import " ++ module ++ "`"
    | some s => indent ++ "- `import " ++ module ++ " as " ++ pyDrop3 s ++ "`"

/-- `project_doc_gen.format_entry` (lines 52-69): `import`-style items are
`None` entries and strings starting with `"as "`; everything else is a
from-import name listed under a `module:` header. -/
def ProjectDocGen.format_entry (module : String) (names : List (Option String))
    (indent : String) : List String :=
  (ProjectDocGen.importItemLines module names indent) ++
    (if (names.filter fun n => !((names.filter fun m =>
          m.isNone || pyStartsWith (pyStr m) "as ").contains n)).isEmpty then []
     else (indent ++ "- `" ++ module ++ "`:") ::
       ((names.filter fun n => !((names.filter fun m =>
            m.isNone || pyStartsWith (pyStr m) "as ").contains n)).map
          fun n => indent ++ "  - " ++ pyStr n))

/-- The classification counters of `project_doc_gen.format_markdown` (lines
77-78, 100-102, 113): `localCount` embeds the `"local"` key. -/
structure MdCounts where
  stdlib : Nat
  external : Nat
  localCount : Nat
  total_imports : Nat
deriving DecidableEq

/-- Group-classification loop body of `project_doc_gen.format_markdown`
(lines 93-102): the three group lists in dict order (`stdlib`, `external`,
`local`) plus the counters. -/
def ProjectDocGen.groupStep (stdlibNames local_modules : List String)
    (acc : Imports × Imports × Imports × MdCounts)
    (entry : String × List (Option String)) :
    Imports × Imports × Imports × MdCounts :=
  if ProjectDocGen.is_local entry.1 local_modules then
    (acc.1, acc.2.1, acc.2.2.1 ++ [entry],
      { acc.2.2.2 with
        localCount := acc.2.2.2.localCount + 1
        total_imports := acc.2.2.2.total_imports + 1 })
  else if isStdlibIn stdlibNames entry.1 then
    (acc.1 ++ [entry], acc.2.1, acc.2.2.1,
      { acc.2.2.2 with
        stdlib := acc.2.2.2.stdlib + 1
        total_imports := acc.2.2.2.total_imports + 1 })
  else
    (acc.1, acc.2.1 ++ [entry], acc.2.2.1,
      { acc.2.2.2 with
        external := acc.2.2.2.external + 1
        total_imports := acc.2.2.2.total_imports + 1 })

/-- Emission of one classification group (lines 104-110): a skipped header
when the group is empty, else the header and each entry's lines. -/
def ProjectDocGen.emitGroup (label : String) (entries : Imports) : List String :=
  if entries.isEmpty then []
  else ("  - **" ++ label ++ "**") ::
    entries.foldl (fun acc e => acc ++ ProjectDocGen.format_entry e.1 e.2 "    ") []

/-- Per-file body of `project_doc_gen.format_markdown` (lines 83-110): the
`(no imports)` marker, or the grouped entries over `sorted(imports.items())`
(a dict, so sorting the items by key), threading the counters. -/
def ProjectDocGen.fileBlock (stdlibNames local_modules : List String)
    (imports : Imports) (counts : MdCounts) : List String × MdCounts :=
  if imports.isEmpty then (["  - (no imports)"], counts)
  else
    match (sortByKey imports).foldl (ProjectDocGen.groupStep stdlibNames local_modules)
        ([], [], [], counts) with
    | (gs, ge, gl, counts) =>
      (ProjectDocGen.emitGroup "stdlib" gs ++ ProjectDocGen.emitGroup "external" ge
        ++ ProjectDocGen.emitGroup "local" gl, counts)

/-- One iteration of `for file_path in sorted(tree):` in
`project_doc_gen.format_markdown` (lines 81-110): emit the file header and
its block, looking the file's imports up in the dict. -/
def ProjectDocGen.fileLoop (stdlibNames local_modules : List String)
    (tree : List (String × Imports)) (acc : List String × MdCounts)
    (file_path : String) : List String × MdCounts :=
  match ProjectDocGen.fileBlock stdlibNames local_modules
      ((lookupTree tree file_path).getD []) acc.2 with
  | (block, counts) => (acc.1 ++ ("- **" ++ file_path ++ "**") :: block, counts)

/-- `project_doc_gen.format_markdown` (lines 72-114): the Markdown text and
the classification counters, with the interpreter's stdlib name set passed
in as data. -/
def ProjectDocGen.format_markdown (stdlibNames : List String)
    (tree : List (String × Imports)) (local_modules : List String) :
    String × MdCounts :=
  match (sortStrings (tree.map Prod.fst)).foldl
      (ProjectDocGen.fileLoop stdlibNames local_modules tree)
      ([], { stdlib := 0, external := 0, localCount := 0, total_imports := 0 }) with
  | (lines, counts) =>
    (if lines.isEmpty then "No Python files found." else pyJoin "\n" lines, counts)

/-- Per-module emission of `import_map.format_markdown` (lines 73-87): the
same item filtering as `project_doc_gen.format_entry`, with the two-space
indentation written out. -/
def ImportMap.moduleLines (module : String) (names : List (Option String)) : List String :=
  ((names.filter fun n => n.isNone || pyStartsWith (pyStr n) "as ").map fun item =>
    match item with
    | none => "  - `import " ++ module ++ "`"
    | some s => "  - `import " ++ module ++ " as " ++ pyDrop3 s ++ "`") ++
  (if (names.filter fun n => !((names.filter fun m =>
        m.isNone || pyStartsWith (pyStr m) "as ").contains n)).isEmpty then []
   else ("  - `" ++ module ++ "`:") ::
     ((names.filter fun n => !((names.filter fun m =>
          m.isNone || pyStartsWith (pyStr m) "as ").contains n)).map
        fun n => "    - " ++ pyStr n))

/-- One iteration of `for file_path in sorted(tree):` in
`import_map.format_markdown` (lines 67-87). -/
def ImportMap.fileLoop (tree : List (String × Imports)) (acc : List String)
    (file_path : String) : List String :=
  if ((lookupTree tree file_path).getD []).isEmpty then
    acc ++ ["- **" ++ file_path ++ "**", "  - (no imports)"]
  else
    (sortByKey ((lookupTree tree file_path).getD [])).foldl
      (fun ls e => ls ++ ImportMap.moduleLines e.1 e.2)
      (acc ++ ["- **" ++ file_path ++ "**"])

/-- `import_map.format_markdown` (lines 62-88). -/
def ImportMap.format_markdown (tree : List (String × Imports)) : String :=
  if tree.isEmpty then "No Python files found."
  else pyJoin "\n" ((sortStrings (tree.map Prod.fst)).foldl (ImportMap.fileLoop tree) [])

/-- Sample import tree in one (simulated parallel) discovery order. -/
def sampleTreeA : List (String × Imports) :=
  [("b.py", [("os", [none])]), ("a.py", [])]

/-- The same import tree in the opposite discovery order. -/
def sampleTreeB : List (String × Imports) :=
  [("a.py", []), ("b.py", [("os", [none])])]

/-- Claim C3 witness sample: the reference produced for `from . import x`. -/
def relDotRef : String := dotString 1 ++ (none : Option String).getD ""

/-- C3: a from-import with relative level greater than zero is always
classified local by `is_local`, whatever the local-module index contains —
its module reference `"." * level + (module or "")` starts with a dot, which
`is_local` accepts unconditionally (this includes the empty module of a
`from . import x`). -/
theorem claim3_relative_refs_always_local (level : Nat) (module : Option String)
    (local_modules : List String) (h : 0 < level) :
    ImportGraphBuilder.is_local (dotString level ++ module.getD "") local_modules = true := by
  cases level with
  | zero => exact absurd h (by simp)
  | succ n =>
    have hdata : (dotString (n + 1) ++ module.getD "").data
        = '.' :: (List.replicate n '.' ++ (module.getD "").data) := by
      simp [dotString, String.data_append, List.replicate_succ]
    have hpre : pyStartsWith (dotString (n + 1) ++ module.getD "") "." = true := by
      simp [pyStartsWith, hdata]
    simp [ImportGraphBuilder.is_local, hpre]

/-- C3 witness: `from . import x` (level 1, empty module) classifies local
even against an empty local-module index. -/
theorem claim3_relative_refs_always_local_witness :
    0 < 1 ∧ ImportGraphBuilder.is_local relDotRef [] = true :=
  ⟨by decide, claim3_relative_refs_always_local 1 none [] (by decide)⟩

/-- C7: for a non-relative module string, `is_local` is true exactly when
the string equals an index entry or some entry followed by a dot is a prefix
of it; `project_doc_gen.is_local` is the same function as the builder's. -/
theorem claim7_nonrelative_local_iff_descendant (module : String)
    (local_modules : List String) (h : pyStartsWith module "." = false) :
    (ImportGraphBuilder.is_local module local_modules = true ↔
      module ∈ local_modules ∨ ∃ e ∈ local_modules, (e ++ ".").data <+: module.data) ∧
    ProjectDocGen.is_local module local_modules = ImportGraphBuilder.is_local module local_modules := by
  constructor
  · simp only [ImportGraphBuilder.is_local, h, Bool.false_eq_true, if_false,
      List.any_eq_true, Bool.or_eq_true, beq_iff_eq]
    constructor
    · rintro ⟨l, hl, hcase⟩
      cases hcase with
      | inl heq => exact Or.inl (heq ▸ hl)
      | inr hpre =>
        exact Or.inr ⟨l, hl, (List.isPrefixOf_iff_prefix).mp hpre⟩
    · rintro (hmem | ⟨e, he, hpre⟩)
      · exact ⟨module, hmem, Or.inl rfl⟩
      · exact ⟨e, he, Or.inr ((List.isPrefixOf_iff_prefix).mpr hpre)⟩
  · rfl

/-- C7 witness: `pkg.sub.mod.helper` is local when `pkg.sub.mod` is
registered, while `pkgsubmod` is not treated as a descendant of `pkg`. -/
theorem claim7_nonrelative_local_iff_descendant_witness :
    pyStartsWith "pkg.sub.mod.helper" "." = false ∧
    ImportGraphBuilder.is_local "pkg.sub.mod.helper" ["pkg.sub.mod"] = true ∧
    ImportGraphBuilder.is_local "pkgsubmod" ["pkg"] = false := by
  refine ⟨by decide, ?_, ?_⟩
  · exact (claim7_nonrelative_local_iff_descendant "pkg.sub.mod.helper" ["pkg.sub.mod"]
      (by decide)).1.mpr (Or.inr ⟨"pkg.sub.mod", by decide, by decide⟩)
  · have h := (claim7_nonrelative_local_iff_descendant "pkgsubmod" ["pkg"] (by decide)).1
    by_contra hb
    have := h.mp (by revert hb; cases hx : ImportGraphBuilder.is_local "pkgsubmod" ["pkg"] <;> simp)
    rcases this with hmem | ⟨e, he, hpre⟩
    · revert hmem; decide
    · rcases List.mem_singleton.mp he with rfl
      revert hpre; decide

/-- Adding to a set keeps every existing member. -/
theorem mem_addToSet_of_mem {s : List String} {x : String} (y : String) (h : x ∈ s) :
    x ∈ addToSet s y := by
  unfold addToSet
  split
  · exact h
  · exact List.mem_append_left _ h

/-- An added element is a member of the set. -/
theorem mem_addToSet_self (s : List String) (x : String) : x ∈ addToSet s x := by
  unfold addToSet
  split
  · assumption
  · exact List.mem_append_right _ (List.mem_singleton_self x)

/-- A fold of `addToSet` insertions keeps every existing member. -/
theorem mem_foldl_addToSet_of_mem {α : Type} (f : α → String) (l : List α) (acc : List String)
    {x : String} (h : x ∈ acc) : x ∈ l.foldl (fun ms i => addToSet ms (f i)) acc := by
  induction l generalizing acc with
  | nil => exact h
  | cons a l ih => exact ih _ (mem_addToSet_of_mem _ h)

/-- A fold of `addToSet` insertions contains the image of every listed
element. -/
theorem mem_foldl_addToSet_self {α : Type} (f : α → String) (l : List α) (acc : List String)
    {i : α} (h : i ∈ l) : f i ∈ l.foldl (fun ms j => addToSet ms (f j)) acc := by
  induction l generalizing acc with
  | nil => cases h
  | cons a l ih =>
    rw [List.foldl_cons]
    cases h with
    | head => exact mem_foldl_addToSet_of_mem _ _ _ (mem_addToSet_self _ _)
    | tail _ h => exact ih _ h

/-- Every existing member survives `addAllTakes`. -/
theorem ImportGraph.mem_addAllTakes_of_mem {acc : List String} {x : String}
    (parts : List String) (h : x ∈ acc) : x ∈ ImportGraph.addAllTakes acc parts :=
  mem_foldl_addToSet_of_mem _ _ _ h

/-- `addAllTakes` contains the join of the first `i + 1` pieces for every
`i` below the number of pieces. -/
theorem ImportGraph.mem_addAllTakes_take (acc : List String) (parts : List String) (i : Nat)
    (hi : i < parts.length) :
    pyJoin "." (parts.take (i + 1)) ∈ ImportGraph.addAllTakes acc parts :=
  mem_foldl_addToSet_self _ _ _ (List.mem_range.mpr hi)

/-- `collectStep` keeps every existing member of the accumulated set. -/
theorem ImportGraph.mem_collectStep_of_mem {acc : List String} {x : String}
    (rel : List String) (h : x ∈ acc) : x ∈ ImportGraph.collectStep acc rel := by
  unfold ImportGraph.collectStep
  split
  · exact mem_addToSet_of_mem _ (ImportGraph.mem_addAllTakes_of_mem _ h)
  · exact ImportGraph.mem_addAllTakes_of_mem _ h

/-- `collectStep` puts every dotted name made of the first `i + 1` segments
of the file's resolved module name into the set. -/
theorem ImportGraph.collectStep_mem_take (acc : List String) (rel : List String) (i : Nat)
    (hi : i < (pySplitDot (ImportGraph.module_name_from_path rel)).length) :
    pyJoin "." ((pySplitDot (ImportGraph.module_name_from_path rel)).take (i + 1))
      ∈ ImportGraph.collectStep acc rel := by
  unfold ImportGraph.collectStep
  split
  · exact mem_addToSet_of_mem _ (ImportGraph.mem_addAllTakes_take acc _ i hi)
  · exact ImportGraph.mem_addAllTakes_take acc _ i hi

/-- Folding `collectStep` over more files keeps every existing member. -/
theorem ImportGraph.mem_foldl_collectStep_of_mem (files : List (List String))
    (acc : List String) {x : String} (h : x ∈ acc) :
    x ∈ files.foldl ImportGraph.collectStep acc := by
  induction files generalizing acc with
  | nil => exact h
  | cons a l ih => exact ih _ (ImportGraph.mem_collectStep_of_mem a h)

/-- Generalisation of claim C1 over an arbitrary accumulated set. -/
theorem ImportGraph.take_mem_foldl_collectStep (files : List (List String))
    (acc : List String) {rel : List String} (hrel : rel ∈ files) (i : Nat)
    (hi : i < (pySplitDot (ImportGraph.module_name_from_path rel)).length) :
    pyJoin "." ((pySplitDot (ImportGraph.module_name_from_path rel)).take (i + 1))
      ∈ files.foldl ImportGraph.collectStep acc := by
  induction files generalizing acc with
  | nil => cases hrel
  | cons a l ih =>
    rw [List.foldl_cons]
    cases hrel with
    | head =>
      exact ImportGraph.mem_foldl_collectStep_of_mem _ _
        (ImportGraph.collectStep_mem_take acc rel i hi)
    | tail _ h => exact ih _ h

/-- C1 (amended): in `import_graph.collect_local_modules`, for every scanned
file whose resolved dotted module name is non-empty, every dotted name made
of the first `i` segments of that name (`i = 1 .. n`) is in the returned
set.  (The `collect_local_modules` of `import_graph_builder.py` and
`project_doc_gen.py` do not share this property; see the counterexample.) -/
theorem claim1_import_graph_index_has_all_dotted_ancestors
    (files : List (List String)) (rel : List String) (hrel : rel ∈ files)
    (hne : ImportGraph.module_name_from_path rel ≠ "") (i : Nat)
    (hi : i < (pySplitDot (ImportGraph.module_name_from_path rel)).length) :
    pyJoin "." ((pySplitDot (ImportGraph.module_name_from_path rel)).take (i + 1))
      ∈ ImportGraph.collect_local_modules files :=
  ImportGraph.take_mem_foldl_collectStep files [] hrel i hi

/-- C1 witness: a file at `pkg/sub/mod.py` contributes `pkg`, `pkg.sub` and
`pkg.sub.mod` to `import_graph.collect_local_modules`. -/
theorem claim1_import_graph_index_has_all_dotted_ancestors_witness :
    "pkg" ∈ ImportGraph.collect_local_modules [["pkg", "sub", "mod.py"]] ∧
    "pkg.sub" ∈ ImportGraph.collect_local_modules [["pkg", "sub", "mod.py"]] ∧
    "pkg.sub.mod" ∈ ImportGraph.collect_local_modules [["pkg", "sub", "mod.py"]] := by
  have e0 : pyJoin "." ((pySplitDot (ImportGraph.module_name_from_path ["pkg", "sub", "mod.py"])).take 1) = "pkg" := by decide
  have e1 : pyJoin "." ((pySplitDot (ImportGraph.module_name_from_path ["pkg", "sub", "mod.py"])).take 2) = "pkg.sub" := by decide
  have e2 : pyJoin "." ((pySplitDot (ImportGraph.module_name_from_path ["pkg", "sub", "mod.py"])).take 3) = "pkg.sub.mod" := by decide
  refine ⟨?_, ?_, ?_⟩
  · exact e0 ▸ claim1_import_graph_index_has_all_dotted_ancestors _ _ (by decide) (by decide) 0 (by decide)
  · exact e1 ▸ claim1_import_graph_index_has_all_dotted_ancestors _ _ (by decide) (by decide) 1 (by decide)
  · exact e2 ▸ claim1_import_graph_index_has_all_dotted_ancestors _ _ (by decide) (by decide) 2 (by decide)

/-- C1 counterexample: the `collect_local_modules` of
`import_graph_builder.py` and `project_doc_gen.py` record only each file's
full resolved module name, so for a tree containing just `pkg/sub/mod.py`
the index misses the dotted ancestors `pkg` and `pkg.sub`. -/
theorem claim1_builder_index_misses_ancestors_cex :
    "pkg" ∉ ImportGraphBuilder.collect_local_modules [["pkg", "sub", "mod.py"]] ∧
    ImportGraphBuilder.collect_local_modules [["pkg", "sub", "mod.py"]] = ["pkg.sub.mod"] ∧
    ProjectDocGen.collect_local_modules [["pkg", "sub", "mod.py"]] = ["pkg.sub.mod"] := by
  decide

/-- C2 (amended): the `module_name` resolver of `import_graph_builder.py`
(shared verbatim by `project_doc_gen.py`) strips the source extension and
joins segments with dots, resolves a package-init file to its parent
directory's dotted path, and resolves an init file directly under the root
to the empty name.  (`import_graph.module_name_from_path` lacks the
package-init case; see the counterexample.) -/
theorem claim2_module_name_resolution :
    ImportGraphBuilder.module_name ["pkg", "sub", "__init__.py"] = "pkg.sub" ∧
    ImportGraphBuilder.module_name ["pkg", "sub", "mod.py"] = "pkg.sub.mod" ∧
    ImportGraphBuilder.module_name ["__init__.py"] = "" ∧
    (∀ ps : List String, ImportGraphBuilder.module_name (ps ++ ["__init__.py"]) = pyJoin "." ps) ∧
    (∀ rel : List String, relName rel ≠ "__init__.py" →
      ImportGraphBuilder.module_name rel = pyJoin "." (withSuffixEmpty rel)) ∧
    ProjectDocGen.module_name = ImportGraphBuilder.module_name := by
  refine ⟨by decide, by decide, by decide, ?_, ?_, rfl⟩
  · intro ps
    have hname : relName (ps ++ ["__init__.py"]) = "__init__.py" := by
      simp [relName, List.getLast?_concat]
    simp [ImportGraphBuilder.module_name, hname, List.dropLast_concat]
  · intro rel h
    simp [ImportGraphBuilder.module_name, h]

/-- C2 witness: the general rules applied to `a/b/__init__.py` and to
`a/util.py`. -/
theorem claim2_module_name_resolution_witness :
    ImportGraphBuilder.module_name ["a", "b", "__init__.py"] = pyJoin "." ["a", "b"] ∧
    relName ["a", "util.py"] ≠ "__init__.py" ∧
    ImportGraphBuilder.module_name ["a", "util.py"] = pyJoin "." (withSuffixEmpty ["a", "util.py"]) :=
  ⟨claim2_module_name_resolution.2.2.2.1 ["a", "b"], by decide,
    claim2_module_name_resolution.2.2.2.2.1 ["a", "util.py"] (by decide)⟩

/-- C2 counterexample: `import_graph.module_name_from_path` does not
special-case package-init files: `pkg/sub/__init__.py` resolves to
`pkg.sub.__init__`, not to the parent package `pkg.sub`. -/
theorem claim2_init_not_special_cased_cex :
    ImportGraph.module_name_from_path ["pkg", "sub", "__init__.py"] = "pkg.sub.__init__" ∧
    ImportGraph.module_name_from_path ["pkg", "sub", "__init__.py"] ≠ "pkg.sub" := by
  decide

/-- The line scan never changes the `lines` counter. -/
theorem CodeStats.lineStep_lines (c : FileCounts) (line : String) :
    (CodeStats.lineStep c line).lines = c.lines := by
  unfold CodeStats.lineStep
  split
  · rfl
  · split <;> rfl

/-- The line scan never changes the structural counters. -/
theorem CodeStats.lineStep_structural (c : FileCounts) (line : String) :
    (CodeStats.lineStep c line).defs = c.defs ∧
    (CodeStats.lineStep c line).classes = c.classes ∧
    (CodeStats.lineStep c line).imports = c.imports ∧
    (CodeStats.lineStep c line).from_imports = c.from_imports := by
  unfold CodeStats.lineStep
  split
  · exact ⟨rfl, rfl, rfl, rfl⟩
  · split <;> exact ⟨rfl, rfl, rfl, rfl⟩

/-- Folding the line scan leaves `lines` untouched. -/
theorem CodeStats.foldl_lineStep_lines (ls : List String) (c : FileCounts) :
    (ls.foldl CodeStats.lineStep c).lines = c.lines := by
  induction ls generalizing c with
  | nil => rfl
  | cons a l ih => rw [List.foldl_cons, ih, CodeStats.lineStep_lines]

/-- Folding the line scan leaves the structural counters untouched. -/
theorem CodeStats.foldl_lineStep_structural (ls : List String) (c : FileCounts) :
    (ls.foldl CodeStats.lineStep c).defs = c.defs ∧
    (ls.foldl CodeStats.lineStep c).classes = c.classes ∧
    (ls.foldl CodeStats.lineStep c).imports = c.imports ∧
    (ls.foldl CodeStats.lineStep c).from_imports = c.from_imports := by
  induction ls generalizing c with
  | nil => exact ⟨rfl, rfl, rfl, rfl⟩
  | cons a l ih =>
    rw [List.foldl_cons]
    obtain ⟨h1, h2, h3, h4⟩ := ih (CodeStats.lineStep c a)
    obtain ⟨g1, g2, g3, g4⟩ := CodeStats.lineStep_structural c a
    exact ⟨h1.trans g1, h2.trans g2, h3.trans g3, h4.trans g4⟩

/-- The blank counter after the line scan is the initial value plus the
number of blank lines. -/
theorem CodeStats.foldl_lineStep_blank (ls : List String) (c : FileCounts) :
    (ls.foldl CodeStats.lineStep c).blank = c.blank + ls.countP isBlankLine := by
  induction ls generalizing c with
  | nil => simp
  | cons a l ih =>
    rw [List.foldl_cons, ih, List.countP_cons]
    by_cases h1 : pyStrip a == ""
    · simp [CodeStats.lineStep, isBlankLine, h1]
      omega
    · by_cases h2 : pyStartsWith (pyStrip a) "#"
      · simp [CodeStats.lineStep, isBlankLine, h1, h2]
      · simp [CodeStats.lineStep, isBlankLine, h1, h2]

/-- The comment counter after the line scan is the initial value plus the
number of comment-only lines. -/
theorem CodeStats.foldl_lineStep_comments (ls : List String) (c : FileCounts) :
    (ls.foldl CodeStats.lineStep c).comments = c.comments + ls.countP isCommentLine := by
  induction ls generalizing c with
  | nil => simp
  | cons a l ih =>
    rw [List.foldl_cons, ih, List.countP_cons]
    by_cases h1 : pyStrip a == ""
    · simp [CodeStats.lineStep, isCommentLine, h1]
    · by_cases h2 : pyStartsWith (pyStrip a) "#"
      · simp [CodeStats.lineStep, isCommentLine, h1, h2]
        omega
      · simp [CodeStats.lineStep, isCommentLine, h1, h2]

/-- All line-based fields of `lineCounts`, plus its zero structural
counters. -/
theorem CodeStats.lineCounts_fields (ls : List String) :
    (CodeStats.lineCounts ls).lines = ls.length ∧
    (CodeStats.lineCounts ls).blank = ls.countP isBlankLine ∧
    (CodeStats.lineCounts ls).comments = ls.countP isCommentLine ∧
    (CodeStats.lineCounts ls).defs = 0 ∧
    (CodeStats.lineCounts ls).classes = 0 ∧
    (CodeStats.lineCounts ls).imports = 0 ∧
    (CodeStats.lineCounts ls).from_imports = 0 := by
  unfold CodeStats.lineCounts
  obtain ⟨h1, h2, h3, h4⟩ := CodeStats.foldl_lineStep_structural ls
    { lines := ls.length, blank := 0, comments := 0, defs := 0, classes := 0,
      imports := 0, from_imports := 0 }
  refine ⟨CodeStats.foldl_lineStep_lines .., ?_, ?_, h1, h2, h3, h4⟩
  · rw [CodeStats.foldl_lineStep_blank]
    simp
  · rw [CodeStats.foldl_lineStep_comments]
    simp

/-- The tree walk never changes the line-based counters. -/
theorem CodeStats.nodeStep_line_fields (c : FileCounts) (n : PyNode) :
    (CodeStats.nodeStep c n).lines = c.lines ∧
    (CodeStats.nodeStep c n).blank = c.blank ∧
    (CodeStats.nodeStep c n).comments = c.comments := by
  cases n <;> exact ⟨rfl, rfl, rfl⟩

/-- Folding the tree walk leaves the line-based counters untouched. -/
theorem CodeStats.foldl_nodeStep_line_fields (ns : List PyNode) (c : FileCounts) :
    (ns.foldl CodeStats.nodeStep c).lines = c.lines ∧
    (ns.foldl CodeStats.nodeStep c).blank = c.blank ∧
    (ns.foldl CodeStats.nodeStep c).comments = c.comments := by
  induction ns generalizing c with
  | nil => exact ⟨rfl, rfl, rfl⟩
  | cons a l ih =>
    rw [List.foldl_cons]
    obtain ⟨h1, h2, h3⟩ := ih (CodeStats.nodeStep c a)
    obtain ⟨g1, g2, g3⟩ := CodeStats.nodeStep_line_fields c a
    exact ⟨h1.trans g1, h2.trans g2, h3.trans g3⟩

/-- The line-based fields of any analysis result come from the raw line
scan, whether or not `ast.parse` succeeded. -/
theorem CodeStats.analyzeContent_line_fields (c : FileContent) :
    (CodeStats.analyzeContent c).lines = c.lines.length ∧
    (CodeStats.analyzeContent c).blank = c.lines.countP isBlankLine ∧
    (CodeStats.analyzeContent c).comments = c.lines.countP isCommentLine := by
  obtain ⟨h1, h2, h3, _, _, _, _⟩ := CodeStats.lineCounts_fields c.lines
  unfold CodeStats.analyzeContent
  cases hc : c.ast with
  | none => exact ⟨h1, h2, h3⟩
  | some nodes =>
    obtain ⟨g1, g2, g3⟩ := CodeStats.foldl_nodeStep_line_fields nodes (CodeStats.lineCounts c.lines)
    exact ⟨g1.trans h1, g2.trans h2, g3.trans h3⟩

/-- Two pointwise-exclusive counts are jointly bounded by the list length. -/
theorem countP_disjoint_le {α : Type} (p q : α → Bool)
    (h : ∀ x, p x = true → q x = false) (l : List α) :
    l.countP p + l.countP q ≤ l.length := by
  induction l with
  | nil => simp
  | cons a l ih =>
    rw [List.countP_cons, List.countP_cons, List.length_cons]
    by_cases hp : p a = true
    · have hq := h a hp
      simp [hp, hq]
      omega
    · simp [hp]
      by_cases hq : q a = true <;> simp [hq] <;> omega

/-- A blank line is never also counted as a comment line. -/
theorem isBlankLine_not_isCommentLine (line : String) (h : isBlankLine line = true) :
    isCommentLine line = false := by
  unfold isBlankLine at h
  simp [isCommentLine, h]

/-- `aggStep` preserves the `files` field of the report. -/
theorem CodeStats.aggStep_files (r : Report) (e : String × SourceFile) :
    (CodeStats.aggStep r e).files = r.files := by
  unfold CodeStats.aggStep CodeStats.addCounts
  split <;> rfl

/-- `aggStep` adds the file's line count to `total_lines`. -/
theorem CodeStats.aggStep_total_lines (r : Report) (e : String × SourceFile) :
    (CodeStats.aggStep r e).total_lines
      = r.total_lines + (CodeStats.analyze_file e.2).lines := by
  unfold CodeStats.aggStep CodeStats.addCounts
  split <;> rfl

/-- Folding `aggStep` preserves `files` and accumulates `total_lines`. -/
theorem CodeStats.foldl_aggStep_files_total (files : List (String × SourceFile)) (r : Report) :
    (files.foldl CodeStats.aggStep r).files = r.files ∧
    (files.foldl CodeStats.aggStep r).total_lines
      = r.total_lines + (files.map fun p => (CodeStats.analyze_file p.2).lines).sum := by
  induction files generalizing r with
  | nil => simp
  | cons a l ih =>
    rw [List.foldl_cons, List.map_cons, List.sum_cons]
    obtain ⟨h1, h2⟩ := ih (CodeStats.aggStep r a)
    refine ⟨h1.trans (CodeStats.aggStep_files r a), ?_⟩
    rw [h2, CodeStats.aggStep_total_lines]
    omega

/-- C9: statistics degrade gracefully — when `ast.parse` fails the analysis
reports zero for `defs`, `classes`, `imports` and `from_imports` but still
reports the physical line, blank-line and comment-line counts, and the
aggregation counts every discovered file in `files` and every file's lines
in `total_lines`. -/
theorem claim9_stats_degrade_gracefully (f : SourceFile)
    (hf : (readContent f).ast = none) :
    (CodeStats.analyze_file f).defs = 0 ∧
    (CodeStats.analyze_file f).classes = 0 ∧
    (CodeStats.analyze_file f).imports = 0 ∧
    (CodeStats.analyze_file f).from_imports = 0 ∧
    (CodeStats.analyze_file f).lines = (readContent f).lines.length ∧
    (CodeStats.analyze_file f).blank = (readContent f).lines.countP isBlankLine ∧
    (CodeStats.analyze_file f).comments = (readContent f).lines.countP isCommentLine ∧
    ∀ files : List (String × SourceFile),
      (CodeStats.aggregate files).files = files.length ∧
      (CodeStats.aggregate files).total_lines
        = (files.map fun p => (CodeStats.analyze_file p.2).lines).sum := by
  obtain ⟨l1, l2, l3⟩ := CodeStats.analyzeContent_line_fields (readContent f)
  have hval : CodeStats.analyze_file f = CodeStats.lineCounts (readContent f).lines := by
    unfold CodeStats.analyze_file CodeStats.analyzeContent
    rw [hf]
  obtain ⟨_, _, _, s1, s2, s3, s4⟩ := CodeStats.lineCounts_fields (readContent f).lines
  refine ⟨hval ▸ s1, hval ▸ s2, hval ▸ s3, hval ▸ s4, l1, l2, l3, ?_⟩
  intro files
  obtain ⟨h1, h2⟩ := CodeStats.foldl_aggStep_files_total files
    { files := files.length, total_lines := 0, blank_lines := 0, comment_lines := 0,
      defs := 0, classes := 0, imports := 0, from_imports := 0,
      longest_file := "", longest_lines := 0 }
  exact ⟨h1, by simpa using h2⟩

/-- C9 witness: a run over one good and one malformed file counts both
files and both files' lines. -/
theorem claim9_stats_degrade_gracefully_witness :
    (readContent sampleBad).ast = none ∧
    (CodeStats.analyze_file sampleBad).defs = 0 ∧
    (CodeStats.analyze_file sampleBad).lines = (readContent sampleBad).lines.length ∧
    (CodeStats.aggregate sampleFiles).files = sampleFiles.length ∧
    (CodeStats.aggregate sampleFiles).total_lines
      = (sampleFiles.map fun p => (CodeStats.analyze_file p.2).lines).sum := by
  have h := claim9_stats_degrade_gracefully sampleBad rfl
  exact ⟨rfl, h.1, h.2.2.2.2.1, (h.2.2.2.2.2.2.2 sampleFiles).1, (h.2.2.2.2.2.2.2 sampleFiles).2⟩

/-- C10: for every input file the counters of `analyze_file` satisfy
`blank ≤ lines`, `comments ≤ lines` and `blank + comments ≤ lines` — each
physical line is counted as at most one of blank or comment-only, and both
counters range over the same `splitlines` list whose length is `lines`. -/
theorem claim10_line_counter_bounds (f : SourceFile) :
    (CodeStats.analyze_file f).blank ≤ (CodeStats.analyze_file f).lines ∧
    (CodeStats.analyze_file f).comments ≤ (CodeStats.analyze_file f).lines ∧
    (CodeStats.analyze_file f).blank + (CodeStats.analyze_file f).comments
      ≤ (CodeStats.analyze_file f).lines := by
  obtain ⟨l1, l2, l3⟩ := CodeStats.analyzeContent_line_fields (readContent f)
  have hb : CodeStats.analyze_file f = CodeStats.analyzeContent (readContent f) := rfl
  rw [hb, l1, l2, l3]
  refine ⟨List.countP_le_length _, List.countP_le_length _, ?_⟩
  exact countP_disjoint_le _ _ isBlankLine_not_isCommentLine _

/-- C4: a single file with `import os` and `from os import path` reduces to
the single module reference `os` (set semantics of `parse_imports`) and
contributes exactly one edge to node `os`; two distinct files importing `a`
contribute one edge each into a single `a` node, with no duplicate node. -/
theorem claim4_edge_multiplicity :
    ImportGraph.parse_imports fileOsBoth = Except.ok ["os"] ∧
    ImportGraph.build_import_tree [("f.py", fileOsBoth)] = Except.ok [("f.py", ["os"])] ∧
    (ImportGraph.build_graph ["os"] [] [("f.py", ["os"])]).edges = [("f.py", "os")] ∧
    (ImportGraph.build_graph ["os"] [] [("a.py", ["a"]), ("b.py", ["a"])]).edges
      = [("a.py", "a"), ("b.py", "a")] ∧
    ((ImportGraph.build_graph ["os"] [] [("a.py", ["a"]), ("b.py", ["a"])]).nodes.map DotNode.id)
      = ["a.py", "a", "b.py"] :=
  ⟨rfl, rfl, rfl, rfl, rfl⟩

/-- `import_graph_builder.parse_imports` succeeds on every file whose bytes
decode as UTF-8 (the only uncaught exception is `UnicodeDecodeError`). -/
theorem ImportGraphBuilder.parse_imports_ok (f : SourceFile)
    (h : f.utf8Decode.isSome = true) :
    ∃ ms, ImportGraphBuilder.parse_imports f = Except.ok ms := by
  cases hf : f.utf8Decode with
  | none => rw [hf] at h; cases h
  | some c =>
    cases hc : c.ast with
    | none => exact ⟨[], by simp [ImportGraphBuilder.parse_imports, hf, hc]⟩
    | some nodes =>
      exact ⟨moduleSetOfNodes nodes, by simp [ImportGraphBuilder.parse_imports, hf, hc]⟩

/-- The builder's tree loop completes over any list of UTF-8-decodable
files, producing one entry per file, whatever the accumulated tree. -/
theorem ImportGraphBuilder.buildTreeAux_ok (files : List (String × SourceFile))
    (tree : List (String × List String))
    (h : ∀ p ∈ files, (p.2).utf8Decode.isSome = true) :
    ∃ t, ImportGraphBuilder.buildTreeAux tree files = Except.ok t ∧
      t.length = tree.length + files.length := by
  induction files generalizing tree with
  | nil => exact ⟨tree, rfl, by simp⟩
  | cons a l ih =>
    obtain ⟨ms, hms⟩ := ImportGraphBuilder.parse_imports_ok a.2 (h a (by simp))
    obtain ⟨t, ht, hlen⟩ := ih (tree ++ [(a.1, ms)]) fun p hp => h p (by simp [hp])
    refine ⟨t, ?_, ?_⟩
    · unfold ImportGraphBuilder.buildTreeAux
      rw [hms]
      exact ht
    · simp only [List.length_append, List.length_cons, List.length_nil] at hlen ⊢
      omega

/-- C5 (amended): in `import_graph_builder.py`, a file whose content fails
to parse yields an empty import set and the run continues over the
remaining files; in `import_graph.py` the `SyntaxError` is not caught and
one malformed file aborts the whole tree build (see the counterexample). -/
theorem claim5_builder_recovers_parse_failure :
    (∀ (f : SourceFile) (c : FileContent), f.utf8Decode = some c → c.ast = none →
      ImportGraphBuilder.parse_imports f = Except.ok []) ∧
    ∀ files : List (String × SourceFile),
      (∀ p ∈ files, (p.2).utf8Decode.isSome = true) →
      ∃ t, ImportGraphBuilder.build_import_tree files = Except.ok t ∧
        t.length = files.length := by
  constructor
  · intro f c hf hc
    simp [ImportGraphBuilder.parse_imports, hf, hc]
  · intro files h
    obtain ⟨t, ht, hlen⟩ := ImportGraphBuilder.buildTreeAux_ok files [] h
    exact ⟨t, ht, by simpa using hlen⟩

/-- C5 witness: a run over one good and one malformed file completes with
one tree entry per file, the malformed one contributing the empty set. -/
theorem claim5_builder_recovers_parse_failure_witness :
    ImportGraphBuilder.parse_imports sampleBad = Except.ok [] ∧
    ∃ t, ImportGraphBuilder.build_import_tree sampleFiles = Except.ok t ∧
      t.length = sampleFiles.length := by
  refine ⟨?_, claim5_builder_recovers_parse_failure.2 sampleFiles (by decide)⟩
  exact claim5_builder_recovers_parse_failure.1 sampleBad
    { lines := ["def broken(:", "# comment"], ast := none } rfl rfl

/-- C5 counterexample: `import_graph.parse_imports` has no `SyntaxError`
handler, so one malformed file aborts `build_import_tree` (and with it the
run of `import_graph.main`) instead of contributing an empty list. -/
theorem claim5_import_graph_aborts_on_parse_failure_cex :
    ImportGraph.build_import_tree [("good.py", sampleGood), ("bad.py", sampleBad)]
      = Except.error ExtractErr.parseErr :=
  rfl

/-- C8 (amended): `import_map.parse_imports` and `code_stats.analyze_file`
read a file as UTF-8 and retry with latin-1 on a decode failure, after
which extraction and statistics proceed on the latin-1 text;
`import_graph.parse_imports` reads UTF-8 only and a decode failure
propagates out of extraction (see the counterexample). -/
theorem claim8_latin1_fallback_on_decode_failure (f : SourceFile)
    (h : f.utf8Decode = none) :
    readContent f = f.latin1Decode ∧
    ImportMap.parse_imports f = ImportMap.parseContent f.latin1Decode ∧
    CodeStats.analyze_file f = CodeStats.analyzeContent f.latin1Decode ∧
    ∀ nodes, f.latin1Decode.ast = some nodes →
      ImportMap.parse_imports f = Except.ok (ImportMap.importsOfNodes nodes) := by
  have hr : readContent f = f.latin1Decode := by unfold readContent; rw [h]
  refine ⟨hr, by unfold ImportMap.parse_imports; rw [hr],
    by unfold CodeStats.analyze_file; rw [hr], ?_⟩
  intro nodes hn
  unfold ImportMap.parse_imports ImportMap.parseContent
  rw [hr, hn]

/-- C8 witness: on a file whose bytes are not valid UTF-8,
`import_map.parse_imports` extracts from the latin-1 decoding instead of
failing. -/
theorem claim8_latin1_fallback_on_decode_failure_witness :
    sampleUndecodable.utf8Decode = none ∧
    ImportMap.parse_imports sampleUndecodable = Except.ok (ImportMap.importsOfNodes []) ∧
    CodeStats.analyze_file sampleUndecodable
      = CodeStats.analyzeContent sampleUndecodable.latin1Decode := by
  have h := claim8_latin1_fallback_on_decode_failure sampleUndecodable rfl
  exact ⟨rfl, h.2.2.2 [] rfl, h.2.2.1⟩

/-- C8 counterexample: on the same undecodable file,
`import_graph.parse_imports` raises the decode error instead of retrying
with latin-1 (which would have succeeded, as `import_map.parse_imports`
shows). -/
theorem claim8_import_graph_no_decode_fallback_cex :
    ImportGraph.parse_imports sampleUndecodable = Except.error ExtractErr.decodeErr ∧
    ImportMap.parse_imports sampleUndecodable = Except.ok [] :=
  ⟨rfl, rfl⟩

/-- Two strings with the same character data are equal. -/
theorem stringDataEq {a b : String} (h : a.data = b.data) : a = b := by
  cases a
  cases b
  cases h
  rfl

/-- The lexicographic character order is total. -/
theorem charListLe_total (as bs : List Char) :
    charListLe as bs = true ∨ charListLe bs as = true := by
  induction as generalizing bs with
  | nil => exact Or.inl rfl
  | cons a as ih =>
    cases bs with
    | nil => exact Or.inr rfl
    | cons b bs =>
      rcases lt_trichotomy a b with h | h | h
      · exact Or.inl (by simp [charListLe, h])
      · subst h
        rcases ih bs with h' | h'
        · exact Or.inl (by simp [charListLe, lt_irrefl, h'])
        · exact Or.inr (by simp [charListLe, lt_irrefl, h'])
      · exact Or.inr (by simp [charListLe, h])

/-- The lexicographic character order is transitive. -/
theorem charListLe_trans (as bs cs : List Char) (h1 : charListLe as bs = true)
    (h2 : charListLe bs cs = true) : charListLe as cs = true := by
  induction as generalizing bs cs with
  | nil => rfl
  | cons a as ih =>
    cases bs with
    | nil => simp [charListLe] at h1
    | cons b bs =>
      cases cs with
      | nil => simp [charListLe] at h2
      | cons c cs =>
        by_cases hab : a < b
        · by_cases hbc : b < c
          · simp [charListLe, hab.trans hbc]
          · by_cases hcb : c < b
            · simp [charListLe, hbc, hcb] at h2
            · have hbceq : b = c := le_antisymm (not_lt.mp hcb) (not_lt.mp hbc)
              subst hbceq
              simp [charListLe, hab]
        · by_cases hba : b < a
          · simp [charListLe, hab, hba] at h1
          · have habeq : a = b := le_antisymm (not_lt.mp hba) (not_lt.mp hab)
            subst habeq
            simp [charListLe, lt_irrefl] at h1
            by_cases hac : a < c
            · simp [charListLe, hac]
            · by_cases hca : c < a
              · simp [charListLe, hac, hca] at h2
              · have haceq : a = c := le_antisymm (not_lt.mp hca) (not_lt.mp hac)
                subst haceq
                simp [charListLe, lt_irrefl] at h2 ⊢
                exact ih bs cs h1 h2

/-- The lexicographic character order is antisymmetric. -/
theorem charListLe_antisymm (as bs : List Char) (h1 : charListLe as bs = true)
    (h2 : charListLe bs as = true) : as = bs := by
  induction as generalizing bs with
  | nil =>
    cases bs with
    | nil => rfl
    | cons b bs => simp [charListLe] at h2
  | cons a as ih =>
    cases bs with
    | nil => simp [charListLe] at h1
    | cons b bs =>
      by_cases hab : a < b
      · simp [charListLe, hab, asymm hab] at h2
      · by_cases hba : b < a
        · simp [charListLe, hab, hba] at h1
        · have habeq : a = b := le_antisymm (not_lt.mp hba) (not_lt.mp hab)
          subst habeq
          simp [charListLe, lt_irrefl] at h1 h2
          rw [ih bs h1 h2]

/-- Sorting with the Python string order is invariant under permutation of
the input: sorted outputs of permuted lists coincide. -/
theorem sortStrings_eq_of_perm (l1 l2 : List String) (hp : l1.Perm l2) :
    sortStrings l1 = sortStrings l2 := by
  haveI : IsTotal String strLeRel := ⟨fun a b => charListLe_total a.data b.data⟩
  haveI : IsTrans String strLeRel := ⟨fun a b c => charListLe_trans a.data b.data c.data⟩
  haveI : IsAntisymm String strLeRel :=
    ⟨fun a b h1 h2 => stringDataEq (charListLe_antisymm a.data b.data h1 h2)⟩
  exact List.eq_of_perm_of_sorted
    ((List.perm_insertionSort strLeRel l1).trans
      (hp.trans (List.perm_insertionSort strLeRel l2).symm))
    (List.sorted_insertionSort strLeRel l1)
    (List.sorted_insertionSort strLeRel l2)

/-- Dict indexing is invariant under permutation of the association list
when the keys are distinct. -/
theorem lookupTree_eq_of_perm {V : Type} (t1 t2 : List (String × V)) (hp : t1.Perm t2)
    (hn : (t1.map Prod.fst).Nodup) (k : String) :
    lookupTree t1 k = lookupTree t2 k := by
  have hfind : t1.find? (fun p => p.1 == k) = t2.find? (fun p => p.1 == k) := by
    rcases h1 : t1.find? (fun p => p.1 == k) with _ | p
    · rcases h2 : t2.find? (fun p => p.1 == k) with _ | q
      · rw [h1, h2]
      · have hq := List.find?_some h2
        have hqm : q ∈ t1 := hp.symm.subset (List.mem_of_find?_eq_some h2)
        have := List.find?_eq_none.mp h1 q hqm
        exact absurd hq (by simpa using this)
    · have hp1 := List.find?_some h1
      have hm1 : p ∈ t2 := hp.subset (List.mem_of_find?_eq_some h1)
      rcases h2 : t2.find? (fun p => p.1 == k) with _ | q
      · have := List.find?_eq_none.mp h2 p hm1
        exact absurd hp1 (by simpa using this)
      · have hq := List.find?_some h2
        have hm2 : q ∈ t1 := hp.symm.subset (List.mem_of_find?_eq_some h2)
        have hpq : p = q := by
          refine List.inj_on_of_nodup_map hn (List.mem_of_find?_eq_some h1) hm2 ?_
          have e1 : p.1 = k := by simpa using hp1
          have e2 : q.1 = k := by simpa using hq
          rw [e1, e2]
        rw [h1, h2, hpq]
  unfold lookupTree
  rw [hfind]

/-- C6: the grouped Markdown listings of `project_doc_gen.format_markdown`
and `import_map.format_markdown` are identical across any two permutations
of the same set of per-file import results (distinct file paths), because
files and modules are emitted in sorted order; hence two runs over an
unchanged tree produce byte-identical output whatever the (simulated
parallel) discovery order. -/
theorem claim6_listing_invariant_under_discovery_order
    (stdlibNames local_modules : List String) (t1 t2 : List (String × Imports))
    (hp : t1.Perm t2) (hn : (t1.map Prod.fst).Nodup) :
    ProjectDocGen.format_markdown stdlibNames t1 local_modules
      = ProjectDocGen.format_markdown stdlibNames t2 local_modules ∧
    ImportMap.format_markdown t1 = ImportMap.format_markdown t2 := by
  have hkeys : sortStrings (t1.map Prod.fst) = sortStrings (t2.map Prod.fst) :=
    sortStrings_eq_of_perm _ _ (hp.map Prod.fst)
  have hlook : ∀ k, lookupTree t1 k = lookupTree t2 k :=
    fun k => lookupTree_eq_of_perm t1 t2 hp hn k
  have hloop1 : ProjectDocGen.fileLoop stdlibNames local_modules t1
      = ProjectDocGen.fileLoop stdlibNames local_modules t2 := by
    funext acc fp
    unfold ProjectDocGen.fileLoop
    rw [hlook fp]
  have hloop2 : ImportMap.fileLoop t1 = ImportMap.fileLoop t2 := by
    funext acc fp
    unfold ImportMap.fileLoop
    rw [hlook fp]
  constructor
  · unfold ProjectDocGen.format_markdown
    rw [hkeys, hloop1]
  · unfold ImportMap.format_markdown
    have hempty : t1.isEmpty = t2.isEmpty := by
      have hlen := hp.length_eq
      cases t1 <;> cases t2 <;> simp_all
    rw [hkeys, hloop2, hempty]

/-- C6 witness: the same two-file tree in two discovery orders renders to
the same grouped listing. -/
theorem claim6_listing_invariant_under_discovery_order_witness :
    sampleTreeA.Perm sampleTreeB ∧
    (sampleTreeA.map Prod.fst).Nodup ∧
    ProjectDocGen.format_markdown ["os"] sampleTreeA []
      = ProjectDocGen.format_markdown ["os"] sampleTreeB [] ∧
    ImportMap.format_markdown sampleTreeA = ImportMap.format_markdown sampleTreeB := by
  have hp : sampleTreeA.Perm sampleTreeB :=
    List.Perm.swap ("a.py", ([] : Imports)) ("b.py", [("os", [none])]) []
  have h := claim6_listing_invariant_under_discovery_order ["os"] [] sampleTreeA sampleTreeB
    hp (by decide)
  exact ⟨hp, by decide, h.1, h.2⟩
